import Mathlib

/-!
Verification of the team-balancing engine of the VTeam repository
(`src/services/TeamGenerationService.ts`), via a shallow embedding.

JavaScript numbers are modelled as rationals (`ℚ`): every arithmetic
operation the engine performs (weighted sums, divisions by list lengths,
comparisons) is exact on the inputs considered here.  `Array.prototype.sort`
with a comparator is a stable sort (ES2019), modelled by
`List.insertionSort` with the comparator's `≤`-relation (insertion sort is
stable for a total preorder).  Wall-clock time (`Date.now()`) is modelled by
an oracle `timeOut : ℕ → Bool` telling, for each value of the iteration
counter, whether the elapsed-time check `currentTime - startTime >
TIME_LIMIT_MS` at the start of that pass fires.  The `while` loop of
`assignPlayersSnakeDraft`, which has no structural termination argument, is
modelled with explicit fuel; `none` means the loop has not finished within
the given fuel (for every fuel), i.e. it diverges.
-/

namespace VTeam

/-- The six skill ratings / per-skill averages (`PlayerSkills` /
`SkillAverages` in `types/index.ts`, both records with the same six
numeric fields). -/
structure PlayerSkills where
  serve : ℚ
  set : ℚ
  block : ℚ
  receive : ℚ
  attack : ℚ
  defense : ℚ
deriving DecidableEq, Repr, Inhabited

/-- `SkillWeights` from `types/index.ts`. -/
structure SkillWeights where
  serve : ℚ
  set : ℚ
  block : ℚ
  receive : ℚ
  attack : ℚ
  defense : ℚ
deriving DecidableEq, Repr, Inhabited

/-- `Player` from `types/index.ts`, restricted to the fields the engine
reads (`teams`, `notes`, `createdAt`, `updatedAt` are never consulted by
`TeamGenerationService`). -/
structure Player where
  id : String
  name : String
  serve : ℚ
  set : ℚ
  block : ℚ
  receive : ℚ
  attack : ℚ
  defense : ℚ
  photo : Option String
  availability : String
deriving DecidableEq, Repr, Inhabited

/-- `PlayerMatch` from `types/index.ts`: a player slot embedded by value in
a team. -/
structure PlayerMatch where
  playerId : String
  playerName : String
  totalScore : ℚ
  skills : PlayerSkills
  isLocked : Bool
  photo : Option String
deriving DecidableEq, Repr, Inhabited

/-- `TeamMatch` from `types/index.ts`. -/
structure TeamMatch where
  id : String
  name : String
  players : List PlayerMatch
  totalScore : ℚ
  skillAverages : PlayerSkills
deriving DecidableEq, Repr, Inhabited

/-- `TeamGenerationResult` from `types/index.ts`.  `executionTime` is a
wall-clock measurement (`Date.now() - startTime`) and is outside the
embedding. -/
structure TeamGenerationResult where
  teams : List TeamMatch
  totalScoreDifference : ℚ
  skillBalanceScore : ℚ
  iterations : ℕ
deriving DecidableEq, Repr, Inhabited

/-- The intermediate `Player & { totalScore: number }` produced by
`generateTeams` via `{ ...player, totalScore: ... }`. -/
structure ScoredPlayer where
  player : Player
  totalScore : ℚ
deriving DecidableEq, Repr, Inhabited

/-- `DEFAULT_WEIGHTS` (0.15 = 3/20, 0.25 = 5/20 exactly, also as binary
doubles scaled: the engine only ever compares and adds these values, all
exact here). -/
def DEFAULT_WEIGHTS : SkillWeights :=
  { serve := 3/20, set := 3/20, block := 3/20, receive := 3/20,
    attack := 5/20, defense := 3/20 }

/-- `MAX_ITERATIONS = 200`. -/
def MAX_ITERATIONS : ℕ := 200

/-- `calculatePlayerScore`. -/
def calculatePlayerScore (player : Player) (weights : SkillWeights) : ℚ :=
  player.serve * weights.serve +
  player.set * weights.set +
  player.block * weights.block +
  player.receive * weights.receive +
  player.attack * weights.attack +
  player.defense * weights.defense

/-- `getEmptySkillAverages`. -/
def getEmptySkillAverages : PlayerSkills :=
  { serve := 0, set := 0, block := 0, receive := 0, attack := 0, defense := 0 }

/-- The `PlayerMatch` literal pushed by `assignPlayersSnakeDraft` for a
scored player. -/
def toPlayerMatch (p : ScoredPlayer) : PlayerMatch :=
  { playerId := p.player.id
    playerName := p.player.name
    totalScore := p.totalScore
    skills :=
      { serve := p.player.serve, set := p.player.set, block := p.player.block,
        receive := p.player.receive, attack := p.player.attack,
        defense := p.player.defense }
    isLocked := false
    photo := p.player.photo }

/-- One directed pass of the snake draft: walk the given team list in
order; a team whose roster is below `target` receives the next remaining
player (`teams[teamIndex].players.push(...)`; `playerIndex++`), a full team
is skipped; the pass stops when the player list is exhausted
(`playerIndex < players.length` in the `for` condition). -/
def snakePass (target : ℕ) :
    List TeamMatch → List ScoredPlayer → List TeamMatch × List ScoredPlayer
  | [], rem => ([], rem)
  | t :: ts, [] => (t :: ts, [])
  | t :: ts, p :: rem =>
    if t.players.length < target then
      let t' := { t with players := t.players ++ [toPlayerMatch p] }
      let (ts', rem') := snakePass target ts rem
      (t' :: ts', rem')
    else
      let (ts', rem') := snakePass target ts (p :: rem)
      (t :: ts', rem')

/-- The `while (playerIndex < players.length)` loop of
`assignPlayersSnakeDraft`: alternating forward and reverse passes (the
reverse pass walks the same teams in reverse index order).  The loop has no
termination argument in the source, so it is given explicit fuel: `none`
means the loop has not exited after `fuel` passes. -/
def snakeLoopFuel (target : ℕ) :
    ℕ → List TeamMatch → List ScoredPlayer → Bool → Option (List TeamMatch)
  | 0, _, _, _ => none
  | _ + 1, teams, [], _ => some teams
  | fuel + 1, teams, p :: rem, true =>
    let (teams', rem') := snakePass target teams (p :: rem)
    snakeLoopFuel target fuel teams' rem' false
  | fuel + 1, teams, p :: rem, false =>
    let (teamsRev, rem') := snakePass target teams.reverse (p :: rem)
    snakeLoopFuel target fuel teamsRev.reverse rem' true

/-- The accumulator step of the two `reduce` calls building `skillSums`
(identical object literals in `updateTeamScores` and
`calculateSubsetScore`). -/
def skillSumsStep (sums : PlayerSkills) (player : PlayerMatch) : PlayerSkills :=
  { serve := sums.serve + player.skills.serve
    set := sums.set + player.skills.set
    block := sums.block + player.skills.block
    receive := sums.receive + player.skills.receive
    attack := sums.attack + player.skills.attack
    defense := sums.defense + player.skills.defense }

/-- `calculateSubsetScore`. -/
def calculateSubsetScore (players : List PlayerMatch) (weights : SkillWeights) : ℚ :=
  if players.length = 0 then 0
  else
    let skillSums := players.foldl skillSumsStep getEmptySkillAverages
    let n : ℚ := players.length
    let skillAverages : PlayerSkills :=
      { serve := skillSums.serve / n, set := skillSums.set / n,
        block := skillSums.block / n, receive := skillSums.receive / n,
        attack := skillSums.attack / n, defense := skillSums.defense / n }
    (skillAverages.serve * weights.serve +
     skillAverages.set * weights.set +
     skillAverages.block * weights.block +
     skillAverages.receive * weights.receive +
     skillAverages.attack * weights.attack +
     skillAverages.defense * weights.defense) * n

/-- The ascending sort `[...players].sort((a, b) => a.totalScore -
b.totalScore)` in `getBest6PlayerSubset` (stable, comparator `≤ 0` iff
`a.totalScore ≤ b.totalScore`). -/
def sortedByScoreAsc (players : List PlayerMatch) : List PlayerMatch :=
  List.insertionSort (fun a b => a.totalScore ≤ b.totalScore) players

/-- `getBest6PlayerSubset`: baseline `players.slice(0, 6)`, then the loop
`for (i = 0; i < players.length - 6; i++)` over windows
`sortedPlayers.slice(i, i + 6)`, keeping a strictly better window
(`score > bestScore`). -/
def getBest6PlayerSubset (players : List PlayerMatch) (weights : SkillWeights) :
    List PlayerMatch :=
  if players.length ≤ 6 then players
  else
    let sortedPlayers := sortedByScoreAsc players
    let best := (List.range (players.length - 6)).foldl
      (fun acc i =>
        let subset := (sortedPlayers.drop i).take 6
        let score := calculateSubsetScore subset weights
        if acc.2 < score then (subset, score) else acc)
      (players.take 6, calculateSubsetScore (players.take 6) weights)
    best.1

/-- `updateTeamScores`, as a pure function on the team record. -/
def updateTeamScores (team : TeamMatch) (weights : SkillWeights) : TeamMatch :=
  if team.players.length = 0 then
    { team with totalScore := 0, skillAverages := getEmptySkillAverages }
  else
    let effectivePlayers :=
      if 7 ≤ team.players.length then getBest6PlayerSubset team.players weights
      else team.players
    let totalScore := effectivePlayers.foldl (fun sum p => sum + p.totalScore) 0
    let skillSums := effectivePlayers.foldl skillSumsStep getEmptySkillAverages
    let n : ℚ := effectivePlayers.length
    { team with
      totalScore := totalScore
      skillAverages :=
        { serve := skillSums.serve / n, set := skillSums.set / n,
          block := skillSums.block / n, receive := skillSums.receive / n,
          attack := skillSums.attack / n, defense := skillSums.defense / n } }

/-- `calculateTotalScoreDifference` (`Math.max(...scores) -
Math.min(...scores)` on a non-empty list is a fold of `max` / `min`). -/
def calculateTotalScoreDifference (teams : List TeamMatch) : ℚ :=
  if teams.length < 2 then 0
  else
    let scores := teams.map (·.totalScore)
    scores.foldl max (scores.headD 0) - scores.foldl min (scores.headD 0)

/-- The per-skill summand of `calculateSkillBalanceScore`: weighted
population variance of one skill's team averages. -/
def skillVariance (teams : List TeamMatch) (value : TeamMatch → ℚ) : ℚ :=
  let skillValues := teams.map value
  let n : ℚ := skillValues.length
  let mean := skillValues.foldl (· + ·) 0 / n
  (skillValues.map (fun v => (v - mean) ^ 2)).foldl (· + ·) 0 / n

/-- `calculateSkillBalanceScore` (the `forEach` over the six skill names
accumulates the weighted variances; written as the explicit sum). -/
def calculateSkillBalanceScore (teams : List TeamMatch) (weights : SkillWeights) : ℚ :=
  if teams.length < 2 then 0
  else
    skillVariance teams (·.skillAverages.serve) * weights.serve +
    skillVariance teams (·.skillAverages.set) * weights.set +
    skillVariance teams (·.skillAverages.block) * weights.block +
    skillVariance teams (·.skillAverages.receive) * weights.receive +
    skillVariance teams (·.skillAverages.attack) * weights.attack +
    skillVariance teams (·.skillAverages.defense) * weights.defense

/-- Placeholder `TeamMatch` used for (always in-range) list indexing. -/
def emptyTeamMatch : TeamMatch :=
  { id := "", name := "", players := [], totalScore := 0,
    skillAverages := getEmptySkillAverages }

/-- Placeholder `PlayerMatch` used for (always in-range) list indexing. -/
def defaultPlayerMatch : PlayerMatch :=
  { playerId := "", playerName := "", totalScore := 0,
    skills := getEmptySkillAverages, isLocked := false, photo := none }

/-- Replace team `t` of the list by `f` of it (in-place mutation of
`teams[t]` in the source; out-of-range `t` never occurs at call sites). -/
def modifyTeamAt (teams : List TeamMatch) (t : ℕ) (f : TeamMatch → TeamMatch) :
    List TeamMatch :=
  teams.set t (f (teams.getD t emptyTeamMatch))

/-- Write `slot` into position `p` of team `t`'s roster
(`teams[t].players[p] = slot`). -/
def setPlayerAt (teams : List TeamMatch) (t p : ℕ) (slot : PlayerMatch) :
    List TeamMatch :=
  modifyTeamAt teams t (fun tm => { tm with players := tm.players.set p slot })

/-- `this.updateTeamScores(teams[t], weights)` as a list transformation. -/
def updateAt (teams : List TeamMatch) (t : ℕ) (weights : SkillWeights) :
    List TeamMatch :=
  modifyTeamAt teams t (fun tm => updateTeamScores tm weights)

/-- The mutable state of `optimizeTeamBalance`'s scan: the team list, the
running `bestScoreDifference`, and the `improved` flag. -/
structure OptState where
  teams : List TeamMatch
  best : ℚ
  improved : Bool
deriving DecidableEq, Repr, Inhabited

/-- The body of the innermost loop of `optimizeTeamBalance`: skip if either
player is locked; otherwise swap `teams[i].players[p1]` with
`teams[j].players[p2]`, recompute both teams, accept on strict improvement
of the global spread, else swap back and recompute both teams again. -/
def trySwap (weights : SkillWeights) (i j p1 p2 : ℕ) (st : OptState) : OptState :=
  let player1 := (st.teams.getD i emptyTeamMatch).players.getD p1 defaultPlayerMatch
  let player2 := (st.teams.getD j emptyTeamMatch).players.getD p2 defaultPlayerMatch
  if player1.isLocked || player2.isLocked then st
  else
    let swapped := setPlayerAt (setPlayerAt st.teams i p1 player2) j p2 player1
    let updated := updateAt (updateAt swapped i weights) j weights
    let newScoreDifference := calculateTotalScoreDifference updated
    if newScoreDifference < st.best then
      { teams := updated, best := newScoreDifference, improved := true }
    else
      let reverted := setPlayerAt (setPlayerAt updated i p1 player1) j p2 player2
      { st with teams := updateAt (updateAt reverted i weights) j weights }

/-- One full pass of `optimizeTeamBalance`: the four nested `for` loops
over team pairs `i < j` and roster positions.  Loop bounds: the number of
teams never changes, and roster lengths are invariant under the positional
swaps, so the bounds are those read at loop entry. -/
def optimizePass (weights : SkillWeights) (st0 : OptState) : OptState :=
  (List.range st0.teams.length).foldl
    (fun st i =>
      (List.range st0.teams.length).foldl
        (fun st j =>
          if i < j then
            (List.range (st.teams.getD i emptyTeamMatch).players.length).foldl
              (fun st p1 =>
                (List.range (st.teams.getD j emptyTeamMatch).players.length).foldl
                  (fun st p2 => trySwap weights i j p1 p2 st) st)
              st
          else st)
        st)
    st0

/-- The diagnostics record returned by `optimizeTeamBalance` together with
the mutated team list. -/
structure OptResult where
  teams : List TeamMatch
  iterations : ℕ
deriving DecidableEq, Repr, Inhabited

/-- The `while (improved && iterations < MAX_ITERATIONS)` loop of
`optimizeTeamBalance`.  `timeOut k` models whether the elapsed-time check
at the start of the pass with `iterations = k` fires
(`Date.now() - startTime > TIME_LIMIT_MS`).  Inside the loop: `improved =
false; iterations++;` then the full pass. -/
def optimizeLoop (weights : SkillWeights) (timeOut : ℕ → Bool)
    (teams : List TeamMatch) (best : ℚ) (improved : Bool) (iterations : ℕ) :
    OptResult :=
  if h : improved = true ∧ iterations < MAX_ITERATIONS then
    if timeOut iterations then { teams := teams, iterations := iterations }
    else
      let st := optimizePass weights { teams := teams, best := best, improved := false }
      optimizeLoop weights timeOut st.teams st.best st.improved (iterations + 1)
  else { teams := teams, iterations := iterations }
termination_by MAX_ITERATIONS - iterations
decreasing_by omega

/-- `optimizeTeamBalance`: `iterations = 0`, `bestScoreDifference`
initialised from the starting assignment, `improved = true`. -/
def optimizeTeamBalance (weights : SkillWeights) (timeOut : ℕ → Bool)
    (teams : List TeamMatch) : OptResult :=
  optimizeLoop weights timeOut teams (calculateTotalScoreDifference teams) true 0

/-- The `Array.from({ length: numberOfTeams }, ...)` team initialisation in
`generateTeams`. -/
def initialTeams (numberOfTeams : ℕ) : List TeamMatch :=
  (List.range numberOfTeams).map fun i =>
    { id := "team_" ++ toString (i + 1)
      name := "Team " ++ toString (i + 1)
      players := []
      totalScore := 0
      skillAverages := getEmptySkillAverages }

/-- The target size of `assignPlayersSnakeDraft`:
`playersPerTeam || Math.ceil(players.length / teams.length)` (`0` is falsy
in JS; for `numberOfTeams ≥ 1` the Nat expression equals the real
ceiling). -/
def targetPlayersPerTeam (playersPerTeam : Option ℕ) (numPlayers numberOfTeams : ℕ) : ℕ :=
  match playersPerTeam with
  | some p => if p = 0 then (numPlayers + numberOfTeams - 1) / numberOfTeams else p
  | none => (numPlayers + numberOfTeams - 1) / numberOfTeams

/-- `generateTeams`: filter to available players, fail if none; score and
sort descending (stable); snake-draft; recompute every team; optimize;
return result and metrics.  `some (Except.error _)` models the thrown
error, `none` models non-termination of the draft loop within `fuel`
passes, `randomSeed` is unused by the source. -/
def generateTeamsFuel (fuel : ℕ) (timeOut : ℕ → Bool) (players : List Player)
    (numberOfTeams : ℕ) (playersPerTeam : Option ℕ)
    (skillWeights : Option SkillWeights) :
    Option (Except String TeamGenerationResult) :=
  let weights := skillWeights.getD DEFAULT_WEIGHTS
  let availablePlayers := players.filter (fun p => p.availability == "available")
  if availablePlayers.length = 0 then
    some (Except.error "No available players found")
  else
    let playersWithScores := availablePlayers.map
      (fun player => ScoredPlayer.mk player (calculatePlayerScore player weights))
    let sorted := List.insertionSort
      (fun a b => b.totalScore ≤ a.totalScore) playersWithScores
    let teams0 := initialTeams numberOfTeams
    let target := targetPlayersPerTeam playersPerTeam sorted.length numberOfTeams
    match snakeLoopFuel target fuel teams0 sorted true with
    | none => none
    | some drafted =>
      let teams := drafted.map (fun team => updateTeamScores team weights)
      let opt := optimizeTeamBalance weights timeOut teams
      some (Except.ok
        { teams := opt.teams
          totalScoreDifference := calculateTotalScoreDifference opt.teams
          skillBalanceScore := calculateSkillBalanceScore opt.teams weights
          iterations := opt.iterations })

/-- `swapPlayers`.  Indices are modelled as integers (the source guards
against negative values); on success the slot is spliced out of the source
roster, pushed onto the destination roster, and both teams are
recomputed. -/
def swapPlayers (teams : List TeamMatch) (playerId : String)
    (fromTeamIndex toTeamIndex : ℤ) (weights : SkillWeights) :
    Bool × List TeamMatch :=
  if fromTeamIndex = toTeamIndex then (false, teams)
  else if fromTeamIndex < 0 ∨ (teams.length : ℤ) ≤ fromTeamIndex then (false, teams)
  else if toTeamIndex < 0 ∨ (teams.length : ℤ) ≤ toTeamIndex then (false, teams)
  else
    let fi := fromTeamIndex.toNat
    let ti := toTeamIndex.toNat
    let fromTeam := teams.getD fi emptyTeamMatch
    let toTeam := teams.getD ti emptyTeamMatch
    match fromTeam.players.findIdx? (fun p => p.playerId == playerId) with
    | none => (false, teams)
    | some playerIndex =>
      let player := fromTeam.players.getD playerIndex defaultPlayerMatch
      if player.isLocked then (false, teams)
      else
        let fromTeamNew := updateTeamScores
          { fromTeam with players := fromTeam.players.eraseIdx playerIndex } weights
        let toTeamNew := updateTeamScores
          { toTeam with players := toTeam.players ++ [player] } weights
        (true, (teams.set fi fromTeamNew).set ti toTeamNew)

/-- The multiset of player ids on one team's roster. -/
def teamIds (team : TeamMatch) : Multiset String :=
  (team.players.map (·.playerId) : List String)

/-- The multiset of player ids across all teams. -/
def allIds (teams : List TeamMatch) : Multiset String :=
  (teams.map teamIds).sum

/-- The roster data preserved by the optimizer: number of teams, each
team's roster size, each team's locked slots (in order), and the global
multiset of player ids. -/
def TeamsShape (a b : List TeamMatch) : Prop :=
  a.length = b.length ∧
  (∀ t, (a.getD t emptyTeamMatch).players.length =
        (b.getD t emptyTeamMatch).players.length) ∧
  (∀ t, (a.getD t emptyTeamMatch).players.filter (·.isLocked) =
        (b.getD t emptyTeamMatch).players.filter (·.isLocked)) ∧
  allIds a = allIds b

/-- The shape of the accumulator loop in `getBest6PlayerSubset`: keep the
first candidate whose value strictly exceeds the current best. -/
def argmaxFold {α : Type} (f : α → ℚ) (l : List α) (init : α × ℚ) : α × ℚ :=
  l.foldl (fun acc x => if acc.2 < f x then (x, f x) else acc) init

/-- The candidate subsets `getBest6PlayerSubset` actually evaluates for a
roster of more than 6 players: the first-6 baseline plus the windows at
offsets `0 .. players.length - 7` of the ascending sort (the loop bound is
`i < players.length - 6`). -/
def best6Candidates (players : List PlayerMatch) : List (List PlayerMatch) :=
  players.take 6 ::
    (List.range (players.length - 6)).map
      (fun i => ((sortedByScoreAsc players).drop i).take 6)

/-- Modelled from the claim's words (NOT from the code): the candidate set
claim C2 asserts is evaluated — the baseline plus every one of the
`n - 5` contiguous windows of size 6 (offsets `0 .. players.length - 6`). -/
def claimedBest6Candidates (players : List PlayerMatch) : List (List PlayerMatch) :=
  players.take 6 ::
    (List.range (players.length - 5)).map
      (fun i => ((sortedByScoreAsc players).drop i).take 6)

/-- An available player all of whose six skills are `s` (weighted score `s`
under the default weights, which sum to 1). -/
def mkAvailPlayer (id : String) (s : ℚ) : Player :=
  { id := id, name := id, serve := s, set := s, block := s, receive := s,
    attack := s, defense := s, photo := none, availability := "available" }

/-- An unlocked player slot all of whose six skills are `s`. -/
def mkSlot (id : String) (s : ℚ) : PlayerMatch :=
  { playerId := id, playerName := id, totalScore := s,
    skills := { serve := s, set := s, block := s, receive := s,
                attack := s, defense := s },
    isLocked := false, photo := none }

/-- A skill record with all six entries equal. -/
def uniformSkills (avg : ℚ) : PlayerSkills :=
  { serve := avg, set := avg, block := avg, receive := avg,
    attack := avg, defense := avg }

/-- The worked example of §8: six players with weighted scores
10, 9, 8, 7, 6, 5. -/
def c9Players : List Player :=
  [mkAvailPlayer "p1" 10, mkAvailPlayer "p2" 9, mkAvailPlayer "p3" 8,
   mkAvailPlayer "p4" 7, mkAvailPlayer "p5" 6, mkAvailPlayer "p6" 5]

/-- The worked example's players with their computed scores (the input is
already sorted descending). -/
def c9Scored : List ScoredPlayer :=
  [⟨mkAvailPlayer "p1" 10, 10⟩, ⟨mkAvailPlayer "p2" 9, 9⟩,
   ⟨mkAvailPlayer "p3" 8, 8⟩, ⟨mkAvailPlayer "p4" 7, 7⟩,
   ⟨mkAvailPlayer "p5" 6, 6⟩, ⟨mkAvailPlayer "p6" 5, 5⟩]

/-- Team 1 as drafted (before score recomputation): players 10, 7, 6. -/
def c9d0 : TeamMatch :=
  { id := "team_1", name := "Team 1",
    players := [mkSlot "p1" 10, mkSlot "p4" 7, mkSlot "p5" 6],
    totalScore := 0, skillAverages := getEmptySkillAverages }

/-- Team 2 as drafted (before score recomputation): players 9, 8, 5. -/
def c9d1 : TeamMatch :=
  { id := "team_2", name := "Team 2",
    players := [mkSlot "p2" 9, mkSlot "p3" 8, mkSlot "p6" 5],
    totalScore := 0, skillAverages := getEmptySkillAverages }

/-- Team 1 with recomputed caches: total 23, averages 23/3. -/
def c9t0 : TeamMatch := { c9d0 with totalScore := 23, skillAverages := uniformSkills (23/3) }

/-- Team 2 with recomputed caches: total 22, averages 22/3. -/
def c9t1 : TeamMatch := { c9d1 with totalScore := 22, skillAverages := uniformSkills (22/3) }

/-- The expected output of the worked example: spread 1, one pass, no
accepted swap. -/
def c9Expected : TeamGenerationResult :=
  { teams := [c9t0, c9t1], totalScoreDifference := 1, skillBalanceScore := 1/36,
    iterations := 1 }

/-- Failing input for the snake draft: three available players but
`playersPerTeam = 1` with two teams (capacity 2 < 3). -/
def c1Players : List Player :=
  [mkAvailPlayer "a" 0, mkAvailPlayer "b" 0, mkAvailPlayer "c" 0]

/-- The scored form of `c1Players` (all scores 0; the sort is stable). -/
def c1Scored : List ScoredPlayer :=
  [⟨mkAvailPlayer "a" 0, 0⟩, ⟨mkAvailPlayer "b" 0, 0⟩, ⟨mkAvailPlayer "c" 0, 0⟩]

/-- The state the draft loop reaches after its first pass on the failing
input: both teams at the target size 1, one player left, and every
further pass leaves the state unchanged. -/
def c1Stuck : List TeamMatch :=
  [{ id := "team_1", name := "Team 1", players := [mkSlot "a" 0],
     totalScore := 0, skillAverages := getEmptySkillAverages },
   { id := "team_2", name := "Team 2", players := [mkSlot "b" 0],
     totalScore := 0, skillAverages := getEmptySkillAverages }]

/-- Counterexample roster for the subset selector: 8 slots with scores
1..8 in ascending input order. -/
def c2Slots : List PlayerMatch :=
  [mkSlot "q1" 1, mkSlot "q2" 2, mkSlot "q3" 3, mkSlot "q4" 4,
   mkSlot "q5" 5, mkSlot "q6" 6, mkSlot "q7" 7, mkSlot "q8" 8]

/-- A two-team assignment used as concrete witness input: a locked slot on
each team. -/
def witnessTeams : List TeamMatch :=
  [{ id := "team_1", name := "Team 1",
     players := [{ mkSlot "w1" 9 with isLocked := true }, mkSlot "w2" 2],
     totalScore := 11, skillAverages := uniformSkills (11/2) },
   { id := "team_2", name := "Team 2",
     players := [mkSlot "w3" 4, mkSlot "w4" 5],
     totalScore := 9, skillAverages := uniformSkills (9/2) }]

/-! ### Fold evaluation lemmas -/

theorem foldl_add_totalScore (l : List PlayerMatch) :
    ∀ init : ℚ, l.foldl (fun sum p => sum + p.totalScore) init
      = init + (l.map (·.totalScore)).sum := by
  induction l with
  | nil => simp
  | cons p l ih => intro init; simp [ih, add_assoc]

theorem skillSums_serve (l : List PlayerMatch) :
    ∀ init : PlayerSkills, (l.foldl skillSumsStep init).serve
      = init.serve + (l.map (·.skills.serve)).sum := by
  induction l with
  | nil => simp
  | cons p l ih => intro init; simp [skillSumsStep, ih, add_assoc]

theorem skillSums_set (l : List PlayerMatch) :
    ∀ init : PlayerSkills, (l.foldl skillSumsStep init).set
      = init.set + (l.map (·.skills.set)).sum := by
  induction l with
  | nil => simp
  | cons p l ih => intro init; simp [skillSumsStep, ih, add_assoc]

theorem skillSums_block (l : List PlayerMatch) :
    ∀ init : PlayerSkills, (l.foldl skillSumsStep init).block
      = init.block + (l.map (·.skills.block)).sum := by
  induction l with
  | nil => simp
  | cons p l ih => intro init; simp [skillSumsStep, ih, add_assoc]

theorem skillSums_receive (l : List PlayerMatch) :
    ∀ init : PlayerSkills, (l.foldl skillSumsStep init).receive
      = init.receive + (l.map (·.skills.receive)).sum := by
  induction l with
  | nil => simp
  | cons p l ih => intro init; simp [skillSumsStep, ih, add_assoc]

theorem skillSums_attack (l : List PlayerMatch) :
    ∀ init : PlayerSkills, (l.foldl skillSumsStep init).attack
      = init.attack + (l.map (·.skills.attack)).sum := by
  induction l with
  | nil => simp
  | cons p l ih => intro init; simp [skillSumsStep, ih, add_assoc]

theorem skillSums_defense (l : List PlayerMatch) :
    ∀ init : PlayerSkills, (l.foldl skillSumsStep init).defense
      = init.defense + (l.map (·.skills.defense)).sum := by
  induction l with
  | nil => simp
  | cons p l ih => intro init; simp [skillSumsStep, ih, add_assoc]

theorem updateTeamScores_players (team : TeamMatch) (weights : SkillWeights) :
    (updateTeamScores team weights).players = team.players := by
  unfold updateTeamScores
  split <;> simp

theorem updateTeamScores_id (team : TeamMatch) (weights : SkillWeights) :
    (updateTeamScores team weights).id = team.id := by
  unfold updateTeamScores
  split <;> simp

theorem updateTeamScores_name (team : TeamMatch) (weights : SkillWeights) :
    (updateTeamScores team weights).name = team.name := by
  unfold updateTeamScores
  split <;> simp

/-- C5: `updateTeamScores` leaves the roster unchanged; an empty roster
gets score 0 and zero averages; a roster of 1–6 players gets the sum of
the members' scores and the per-skill means over all members; a roster of
7 or more players gets the sum and means over the best-6 subset chosen by
the windowed heuristic. -/
theorem updateTeamScores_spec (team : TeamMatch) (weights : SkillWeights) :
    (updateTeamScores team weights).players = team.players ∧
    (team.players.length = 0 →
      (updateTeamScores team weights).totalScore = 0 ∧
      (updateTeamScores team weights).skillAverages = getEmptySkillAverages) ∧
    (1 ≤ team.players.length → team.players.length ≤ 6 →
      (updateTeamScores team weights).totalScore
        = (team.players.map (·.totalScore)).sum ∧
      (updateTeamScores team weights).skillAverages =
        { serve := (team.players.map (·.skills.serve)).sum / team.players.length
          set := (team.players.map (·.skills.set)).sum / team.players.length
          block := (team.players.map (·.skills.block)).sum / team.players.length
          receive := (team.players.map (·.skills.receive)).sum / team.players.length
          attack := (team.players.map (·.skills.attack)).sum / team.players.length
          defense := (team.players.map (·.skills.defense)).sum / team.players.length }) ∧
    (7 ≤ team.players.length →
      (updateTeamScores team weights).totalScore
        = ((getBest6PlayerSubset team.players weights).map (·.totalScore)).sum ∧
      (updateTeamScores team weights).skillAverages =
        { serve := ((getBest6PlayerSubset team.players weights).map (·.skills.serve)).sum
            / (getBest6PlayerSubset team.players weights).length
          set := ((getBest6PlayerSubset team.players weights).map (·.skills.set)).sum
            / (getBest6PlayerSubset team.players weights).length
          block := ((getBest6PlayerSubset team.players weights).map (·.skills.block)).sum
            / (getBest6PlayerSubset team.players weights).length
          receive := ((getBest6PlayerSubset team.players weights).map (·.skills.receive)).sum
            / (getBest6PlayerSubset team.players weights).length
          attack := ((getBest6PlayerSubset team.players weights).map (·.skills.attack)).sum
            / (getBest6PlayerSubset team.players weights).length
          defense := ((getBest6PlayerSubset team.players weights).map (·.skills.defense)).sum
            / (getBest6PlayerSubset team.players weights).length }) := by
  refine ⟨updateTeamScores_players team weights, ?_, ?_, ?_⟩
  · intro h
    simp [updateTeamScores, h]
  · intro h1 h6
    have h0 : ¬ team.players.length = 0 := by omega
    have h7 : ¬ 7 ≤ team.players.length := by omega
    simp [updateTeamScores, h0, h7, foldl_add_totalScore, skillSums_serve,
      skillSums_set, skillSums_block, skillSums_receive, skillSums_attack,
      skillSums_defense, getEmptySkillAverages]
  · intro h7
    have h0 : ¬ team.players.length = 0 := by omega
    simp [updateTeamScores, h0, h7, foldl_add_totalScore, skillSums_serve,
      skillSums_set, skillSums_block, skillSums_receive, skillSums_attack,
      skillSums_defense, getEmptySkillAverages]

/-- Witness for C5 at a concrete two-player team. -/
theorem updateTeamScores_spec_witness :
    (updateTeamScores (witnessTeams.getD 1 emptyTeamMatch) DEFAULT_WEIGHTS).totalScore
      = ((witnessTeams.getD 1 emptyTeamMatch).players.map (·.totalScore)).sum ∧
    (updateTeamScores (witnessTeams.getD 1 emptyTeamMatch) DEFAULT_WEIGHTS).skillAverages
      = { serve := ((witnessTeams.getD 1 emptyTeamMatch).players.map (·.skills.serve)).sum
            / (witnessTeams.getD 1 emptyTeamMatch).players.length
          set := ((witnessTeams.getD 1 emptyTeamMatch).players.map (·.skills.set)).sum
            / (witnessTeams.getD 1 emptyTeamMatch).players.length
          block := ((witnessTeams.getD 1 emptyTeamMatch).players.map (·.skills.block)).sum
            / (witnessTeams.getD 1 emptyTeamMatch).players.length
          receive := ((witnessTeams.getD 1 emptyTeamMatch).players.map (·.skills.receive)).sum
            / (witnessTeams.getD 1 emptyTeamMatch).players.length
          attack := ((witnessTeams.getD 1 emptyTeamMatch).players.map (·.skills.attack)).sum
            / (witnessTeams.getD 1 emptyTeamMatch).players.length
          defense := ((witnessTeams.getD 1 emptyTeamMatch).players.map (·.skills.defense)).sum
            / (witnessTeams.getD 1 emptyTeamMatch).players.length } :=
  (updateTeamScores_spec (witnessTeams.getD 1 emptyTeamMatch) DEFAULT_WEIGHTS).2.2.1
    (by decide) (by decide)

/-! ### The subset selector as an argmax over its candidate list -/

theorem argmaxFold_spec {α : Type} (f : α → ℚ) :
    ∀ (l : List α) (b : α),
      ((argmaxFold f l (b, f b)).1 = b ∨ (argmaxFold f l (b, f b)).1 ∈ l) ∧
      (argmaxFold f l (b, f b)).2 = f (argmaxFold f l (b, f b)).1 ∧
      f b ≤ (argmaxFold f l (b, f b)).2 ∧
      ∀ c ∈ l, f c ≤ (argmaxFold f l (b, f b)).2 := by
  intro l
  induction l with
  | nil => intro b; simp [argmaxFold]
  | cons x l ih =>
    intro b
    by_cases h : f b < f x
    · have hstep : argmaxFold f (x :: l) (b, f b) = argmaxFold f l (x, f x) := by
        simp [argmaxFold, h]
      rw [hstep]
      obtain ⟨hmem, hsnd, hle, hall⟩ := ih x
      refine ⟨?_, hsnd, le_trans (le_of_lt h) hle, ?_⟩
      · rcases hmem with h1 | h1
        · exact Or.inr (by rw [h1]; exact List.mem_cons_self x l)
        · exact Or.inr (List.mem_cons_of_mem x h1)
      · intro c hc
        rcases List.mem_cons.1 hc with rfl | hc
        · exact hle
        · exact hall c hc
    · have hstep : argmaxFold f (x :: l) (b, f b) = argmaxFold f l (b, f b) := by
        simp [argmaxFold, h]
      rw [hstep]
      obtain ⟨hmem, hsnd, hle, hall⟩ := ih b
      refine ⟨?_, hsnd, hle, ?_⟩
      · rcases hmem with h1 | h1
        · exact Or.inl h1
        · exact Or.inr (List.mem_cons_of_mem x h1)
      · intro c hc
        rcases List.mem_cons.1 hc with rfl | hc
        · exact le_trans (le_of_not_lt h) hle
        · exact hall c hc

theorem getBest6_eq_argmax (players : List PlayerMatch) (weights : SkillWeights)
    (h : 6 < players.length) :
    getBest6PlayerSubset players weights
      = (argmaxFold (fun s => calculateSubsetScore s weights)
          ((List.range (players.length - 6)).map
            (fun i => ((sortedByScoreAsc players).drop i).take 6))
          (players.take 6, calculateSubsetScore (players.take 6) weights)).1 := by
  rw [getBest6PlayerSubset, if_neg (by omega)]
  rw [argmaxFold, List.foldl_map]

/-- C2 (amended): for a roster of more than 6 players,
`getBest6PlayerSubset` returns one of the candidates it actually
evaluates — the first-6 baseline or one of the `n - 6` windows at offsets
`0 .. n - 7` of the ascending sort — and its subset score is maximal among
those evaluated candidates. -/
theorem getBest6_best_of_candidates (players : List PlayerMatch)
    (weights : SkillWeights) (h : 6 < players.length) :
    getBest6PlayerSubset players weights ∈ best6Candidates players ∧
    ∀ c ∈ best6Candidates players,
      calculateSubsetScore c weights
        ≤ calculateSubsetScore (getBest6PlayerSubset players weights) weights := by
  rw [getBest6_eq_argmax players weights h]
  obtain ⟨hmem, hsnd, hle, hall⟩ := argmaxFold_spec
    (fun s => calculateSubsetScore s weights)
    ((List.range (players.length - 6)).map
      (fun i => ((sortedByScoreAsc players).drop i).take 6))
    (players.take 6)
  constructor
  · rcases hmem with h1 | h1
    · rw [h1, best6Candidates]
      exact List.mem_cons_self _ _
    · exact List.mem_cons_of_mem _ h1
  · intro c hc
    rw [← hsnd]
    rcases List.mem_cons.1 hc with rfl | hc
    · exact hle
    · exact hall c hc

/-- Witness for the amended C2 at the concrete 8-player roster. -/
theorem getBest6_best_of_candidates_witness :
    getBest6PlayerSubset c2Slots DEFAULT_WEIGHTS ∈ best6Candidates c2Slots ∧
    ∀ c ∈ best6Candidates c2Slots,
      calculateSubsetScore c DEFAULT_WEIGHTS
        ≤ calculateSubsetScore (getBest6PlayerSubset c2Slots DEFAULT_WEIGHTS)
            DEFAULT_WEIGHTS :=
  getBest6_best_of_candidates c2Slots DEFAULT_WEIGHTS (by decide)

/-! ### C2 counterexample, C1 divergence, C8 error handling -/

/-- C2 counterexample: on an 8-player roster with scores 1..8 the window
at offset 2 of the ascending sort (the 6 highest-scored players) is one of
the n - 5 windows the claim says is evaluated, yet it scores strictly
higher than the subset `getBest6PlayerSubset` returns — the loop bound
`i < players.length - 6` never evaluates the last window. -/
theorem getBest6_misses_top_window :
    ((sortedByScoreAsc c2Slots).drop 2).take 6 ∈ claimedBest6Candidates c2Slots ∧
    calculateSubsetScore (getBest6PlayerSubset c2Slots DEFAULT_WEIGHTS) DEFAULT_WEIGHTS
      < calculateSubsetScore (((sortedByScoreAsc c2Slots).drop 2).take 6)
          DEFAULT_WEIGHTS := by
  constructor
  · exact List.mem_cons_of_mem _
      (List.mem_map.2 ⟨2, List.mem_range.2 (by decide), rfl⟩)
  · norm_num [getBest6PlayerSubset, c2Slots, mkSlot, sortedByScoreAsc, List.insertionSort,
      List.orderedInsert, calculateSubsetScore, skillSumsStep, getEmptySkillAverages,
      DEFAULT_WEIGHTS, List.range_succ]

/-- Once both teams are at the target size with a player still unplaced,
every further pass of the draft loop leaves the state unchanged, so the
loop never terminates, whatever the fuel. -/
theorem c1_stuck_none : ∀ (fuel : ℕ) (b : Bool),
    snakeLoopFuel 1 fuel c1Stuck [⟨mkAvailPlayer "c" 0, 0⟩] b = none := by
  intro fuel
  induction fuel with
  | zero => intro b; rfl
  | succ n ih =>
    intro b
    cases b <;>
      (simp [snakeLoopFuel, snakePass, c1Stuck, mkSlot, mkAvailPlayer,
        getEmptySkillAverages]
       exact ih _)

theorem c1_draft_none : ∀ fuel : ℕ,
    snakeLoopFuel 1 fuel (initialTeams 2) c1Scored true = none := by
  intro fuel
  cases fuel with
  | zero => rfl
  | succ n =>
    simp [snakeLoopFuel, snakePass, initialTeams, c1Scored, toPlayerMatch,
      List.range_succ]
    exact c1_stuck_none n false
/-- C1: with 3 available players, 2 teams and an explicit
`playersPerTeam = 1` (capacity 2 < 3), the snake-draft `while` loop never
terminates — the third player is never placed, contradicting the claim
that the target is advisory and every player is always placed. -/
theorem generateTeams_diverges : ∀ fuel : ℕ,
    generateTeamsFuel fuel (fun _ => false) c1Players 2 (some 1) none = none := by
  intro fuel
  simp only [generateTeamsFuel, Option.getD_none]
  rw [show c1Players.filter (fun p => p.availability == "available") = c1Players
      from by norm_num [c1Players, mkAvailPlayer]]
  rw [if_neg (show ¬(c1Players.length = 0) by decide)]
  rw [show c1Players.map (fun player =>
        ScoredPlayer.mk player (calculatePlayerScore player DEFAULT_WEIGHTS)) = c1Scored
      from by norm_num [c1Players, c1Scored, mkAvailPlayer, calculatePlayerScore,
        DEFAULT_WEIGHTS]]
  rw [show List.insertionSort (fun a b => b.totalScore ≤ a.totalScore) c1Scored = c1Scored
      from by norm_num [c1Scored, List.insertionSort, List.orderedInsert]]
  rw [show targetPlayersPerTeam (some 1) c1Scored.length 2 = 1 from rfl]
  rw [c1_draft_none fuel]

/-- C8: `generateTeams` throws "No available players found" exactly when
the list of available players is empty; with at least one available player
no error is ever raised on this path. -/
theorem generateTeams_error_iff (fuel : ℕ) (timeOut : ℕ → Bool) (players : List Player)
    (numberOfTeams : ℕ) (playersPerTeam : Option ℕ) (skillWeights : Option SkillWeights) :
    ((players.filter (fun p => p.availability == "available")).length = 0 →
      generateTeamsFuel fuel timeOut players numberOfTeams playersPerTeam skillWeights
        = some (Except.error "No available players found")) ∧
    ((players.filter (fun p => p.availability == "available")).length ≠ 0 →
      ∀ msg, generateTeamsFuel fuel timeOut players numberOfTeams playersPerTeam skillWeights
        ≠ some (Except.error msg)) := by
  constructor
  · intro h
    simp [generateTeamsFuel, h]
  · intro h msg
    simp only [generateTeamsFuel, if_neg h]
    cases hdraft : snakeLoopFuel
        (targetPlayersPerTeam playersPerTeam
          (List.insertionSort (fun a b => b.totalScore ≤ a.totalScore)
            ((players.filter (fun p => p.availability == "available")).map
              (fun player => ScoredPlayer.mk player
                (calculatePlayerScore player (skillWeights.getD DEFAULT_WEIGHTS))))).length
          numberOfTeams)
        fuel (initialTeams numberOfTeams)
        (List.insertionSort (fun a b => b.totalScore ≤ a.totalScore)
          ((players.filter (fun p => p.availability == "available")).map
            (fun player => ScoredPlayer.mk player
              (calculatePlayerScore player (skillWeights.getD DEFAULT_WEIGHTS)))))
        true with
    | none => simp [hdraft]
    | some drafted => simp [hdraft]
/-- Witness for C8: the error is raised on an empty pool and not raised
with six available players. -/
theorem generateTeams_error_iff_witness :
    generateTeamsFuel 1 (fun _ => false) [] 1 none none
      = some (Except.error "No available players found") ∧
    generateTeamsFuel 10 (fun _ => false) c9Players 2 (some 3) none
      ≠ some (Except.error "No available players found") :=
  ⟨(generateTeams_error_iff 1 (fun _ => false) [] 1 none none).1 rfl,
   (generateTeams_error_iff 10 (fun _ => false) c9Players 2 (some 3) none).2
     (by decide) "No available players found"⟩

/-! ### List and multiset bookkeeping -/

theorem getD_set_eq {α : Type} (l : List α) (n : ℕ) (x d : α) (h : n < l.length) :
    (l.set n x).getD n d = x := by
  simp [List.getD_eq_getElem?_getD, List.getElem?_set, h]

theorem getD_set_ne {α : Type} (l : List α) (m n : ℕ) (x d : α) (h : m ≠ n) :
    (l.set n x).getD m d = l.getD m d := by
  simp [List.getD_eq_getElem?_getD, List.getElem?_set, Ne.symm h]

theorem set_oob {α : Type} (l : List α) (n : ℕ) (x : α) (h : l.length ≤ n) :
    l.set n x = l := by
  induction l generalizing n with
  | nil => rfl
  | cons a l ih =>
    cases n with
    | zero => simp at h
    | succ n => simp_all [List.set]

theorem set_getD_self {α : Type} (l : List α) (n : ℕ) (d : α) (h : n < l.length) :
    l.set n (l.getD n d) = l := by
  induction l generalizing n with
  | nil => simp at h
  | cons a l ih =>
    cases n with
    | zero => simp
    | succ n => simp_all [List.set]

theorem map_set_exchange {α β : Type} (f : α → β) :
    ∀ (l : List α) (p : ℕ) (x d : α), p < l.length →
      ((l.set p x).map f : Multiset β) + {f (l.getD p d)}
        = (l.map f : Multiset β) + {f x} := by
  intro l
  induction l with
  | nil => intro p x d h; simp at h
  | cons a l ih =>
    intro p x d h
    cases p with
    | zero =>
      simp only [List.set, List.getD_cons_zero, List.map_cons, ← Multiset.cons_coe,
        ← Multiset.singleton_add]
      abel
    | succ p =>
      have hp : p < l.length := by simpa using h
      simp only [List.set, List.getD_cons_succ, List.map_cons, ← Multiset.cons_coe,
        Multiset.cons_add]
      congr 1
      exact ih p x d hp

theorem filter_set_unlocked :
    ∀ (l : List PlayerMatch) (p : ℕ) (x : PlayerMatch), p < l.length →
      (l.getD p defaultPlayerMatch).isLocked = false → x.isLocked = false →
      (l.set p x).filter (·.isLocked) = l.filter (·.isLocked) := by
  intro l
  induction l with
  | nil => intro p x h; simp at h
  | cons a l ih =>
    intro p x hp hold hnew
    cases p with
    | zero =>
      simp only [List.getD_cons_zero] at hold
      simp [List.set, List.filter_cons, hold, hnew]
    | succ p =>
      have hp2 : p < l.length := by simpa using hp
      simp only [List.getD_cons_succ] at hold
      simp [List.set, List.filter_cons, ih p x hp2 hold hnew]

theorem allIds_cons (t : TeamMatch) (ts : List TeamMatch) :
    allIds (t :: ts) = teamIds t + allIds ts := by
  simp [allIds]

theorem allIds_reverse (l : List TeamMatch) : allIds l.reverse = allIds l := by
  simp only [allIds, List.map_reverse]
  exact List.Perm.sum_eq (List.reverse_perm _)

theorem allIds_set_exchange :
    ∀ (a : List TeamMatch) (n : ℕ) (t : TeamMatch), n < a.length →
      allIds (a.set n t) + teamIds (a.getD n emptyTeamMatch)
        = allIds a + teamIds t := by
  intro a
  induction a with
  | nil => intro n t h; simp at h
  | cons b a ih =>
    intro n t h
    cases n with
    | zero =>
      simp only [List.set, List.getD_cons_zero, allIds_cons]
      abel
    | succ n =>
      have hn : n < a.length := by simpa using h
      simp only [List.set, List.getD_cons_succ, allIds_cons]
      rw [add_assoc, add_assoc, ih n t hn]

theorem allIds_congr :
    ∀ (a b : List TeamMatch), a.length = b.length →
      (∀ s, (a.getD s emptyTeamMatch).players = (b.getD s emptyTeamMatch).players) →
      allIds a = allIds b := by
  intro a
  induction a with
  | nil =>
    intro b hlen _
    cases b with
    | nil => rfl
    | cons c cs => simp at hlen
  | cons x a ih =>
    intro b hlen h
    cases b with
    | nil => simp at hlen
    | cons y b =>
      have h0 := h 0
      simp only [List.getD_cons_zero] at h0
      have htail : ∀ s, (a.getD s emptyTeamMatch).players
          = (b.getD s emptyTeamMatch).players := by
        intro s
        have := h (s + 1)
        simpa using this
      rw [allIds_cons, allIds_cons, ih b (by simpa using hlen) htail]
      unfold teamIds
      rw [h0]

theorem teamsShape_refl (a : List TeamMatch) : TeamsShape a a :=
  ⟨rfl, fun _ => rfl, fun _ => rfl, rfl⟩

theorem teamsShape_trans {a b c : List TeamMatch}
    (h1 : TeamsShape a b) (h2 : TeamsShape b c) : TeamsShape a c :=
  ⟨h1.1.trans h2.1, fun t => (h1.2.1 t).trans (h2.2.1 t),
   fun t => (h1.2.2.1 t).trans (h2.2.2.1 t), h1.2.2.2.trans h2.2.2.2⟩

theorem length_modifyTeamAt (teams : List TeamMatch) (t : ℕ) (f : TeamMatch → TeamMatch) :
    (modifyTeamAt teams t f).length = teams.length := by
  simp [modifyTeamAt]

theorem getD_modifyTeamAt_self (teams : List TeamMatch) (t : ℕ) (f : TeamMatch → TeamMatch)
    (h : t < teams.length) :
    (modifyTeamAt teams t f).getD t emptyTeamMatch = f (teams.getD t emptyTeamMatch) :=
  getD_set_eq _ _ _ _ h

theorem getD_modifyTeamAt_ne (teams : List TeamMatch) (t : ℕ) (f : TeamMatch → TeamMatch)
    (s : ℕ) (h : s ≠ t) :
    (modifyTeamAt teams t f).getD s emptyTeamMatch = teams.getD s emptyTeamMatch :=
  getD_set_ne _ _ _ _ _ h

theorem modifyTeamAt_oob (teams : List TeamMatch) (t : ℕ) (f : TeamMatch → TeamMatch)
    (h : teams.length ≤ t) : modifyTeamAt teams t f = teams :=
  set_oob _ _ _ h

theorem teamsShape_of_players_eq (a b : List TeamMatch) (hlen : a.length = b.length)
    (h : ∀ s, (a.getD s emptyTeamMatch).players = (b.getD s emptyTeamMatch).players) :
    TeamsShape a b :=
  ⟨hlen, fun t => by rw [h t], fun t => by rw [h t], allIds_congr a b hlen h⟩

theorem updateAt_players (teams : List TeamMatch) (t : ℕ) (weights : SkillWeights) (s : ℕ) :
    ((updateAt teams t weights).getD s emptyTeamMatch).players
      = (teams.getD s emptyTeamMatch).players := by
  by_cases hs : s = t
  · subst hs
    by_cases ht : s < teams.length
    · rw [updateAt, getD_modifyTeamAt_self _ _ _ ht, updateTeamScores_players]
    · rw [updateAt, modifyTeamAt_oob _ _ _ (le_of_not_lt ht)]
  · rw [updateAt, getD_modifyTeamAt_ne _ _ _ _ hs]

theorem updateAt_length (teams : List TeamMatch) (t : ℕ) (weights : SkillWeights) :
    (updateAt teams t weights).length = teams.length :=
  length_modifyTeamAt _ _ _

theorem updateAt_shape (teams : List TeamMatch) (t : ℕ) (weights : SkillWeights) :
    TeamsShape (updateAt teams t weights) teams :=
  teamsShape_of_players_eq _ _ (updateAt_length teams t weights)
    (updateAt_players teams t weights)

theorem setPlayerAt_length (teams : List TeamMatch) (t p : ℕ) (slot : PlayerMatch) :
    (setPlayerAt teams t p slot).length = teams.length :=
  length_modifyTeamAt _ _ _

theorem getD_setPlayerAt_self (teams : List TeamMatch) (t p : ℕ) (slot : PlayerMatch)
    (h : t < teams.length) :
    (setPlayerAt teams t p slot).getD t emptyTeamMatch
      = { teams.getD t emptyTeamMatch with
          players := (teams.getD t emptyTeamMatch).players.set p slot } :=
  getD_modifyTeamAt_self _ _ _ h

theorem getD_setPlayerAt_ne (teams : List TeamMatch) (t p : ℕ) (slot : PlayerMatch)
    (s : ℕ) (h : s ≠ t) :
    (setPlayerAt teams t p slot).getD s emptyTeamMatch = teams.getD s emptyTeamMatch :=
  getD_modifyTeamAt_ne _ _ _ _ h

/-- The double positional write of a trial swap preserves the shape. -/
theorem swapWrite_shape (T : List TeamMatch) (i j p1 p2 : ℕ)
    (hij : i ≠ j) (hi : i < T.length) (hj : j < T.length)
    (hp1 : p1 < ((T.getD i emptyTeamMatch).players.length))
    (hp2 : p2 < ((T.getD j emptyTeamMatch).players.length))
    (h1 : ((T.getD i emptyTeamMatch).players.getD p1 defaultPlayerMatch).isLocked = false)
    (h2 : ((T.getD j emptyTeamMatch).players.getD p2 defaultPlayerMatch).isLocked = false) :
    TeamsShape
      (setPlayerAt (setPlayerAt T i p1
          ((T.getD j emptyTeamMatch).players.getD p2 defaultPlayerMatch)) j p2
          ((T.getD i emptyTeamMatch).players.getD p1 defaultPlayerMatch))
      T := by
  set player1 := (T.getD i emptyTeamMatch).players.getD p1 defaultPlayerMatch with hP1
  set player2 := (T.getD j emptyTeamMatch).players.getD p2 defaultPlayerMatch with hP2
  set Ti := T.getD i emptyTeamMatch with hTi
  set Tj := T.getD j emptyTeamMatch with hTj
  set A := setPlayerAt T i p1 player2 with hA
  set B := setPlayerAt A j p2 player1 with hB
  have hAlen : A.length = T.length := setPlayerAt_length _ _ _ _
  have hBlen : B.length = A.length := setPlayerAt_length _ _ _ _
  have hAi : A.getD i emptyTeamMatch = { Ti with players := Ti.players.set p1 player2 } :=
    getD_setPlayerAt_self _ _ _ _ hi
  have hAj : A.getD j emptyTeamMatch = Tj := getD_setPlayerAt_ne _ _ _ _ _ (Ne.symm hij)
  have hAs : ∀ s, s ≠ i → A.getD s emptyTeamMatch = T.getD s emptyTeamMatch :=
    fun s hs => getD_setPlayerAt_ne _ _ _ _ _ hs
  have hBj : B.getD j emptyTeamMatch = { Tj with players := Tj.players.set p2 player1 } := by
    rw [hB, getD_setPlayerAt_self _ _ _ _ (by omega : j < A.length), hAj]
  have hBi : B.getD i emptyTeamMatch = { Ti with players := Ti.players.set p1 player2 } := by
    rw [hB, getD_setPlayerAt_ne _ _ _ _ _ hij, hAi]
  have hBs : ∀ s, s ≠ i → s ≠ j →
      B.getD s emptyTeamMatch = T.getD s emptyTeamMatch := by
    intro s hsi hsj
    rw [hB, getD_setPlayerAt_ne _ _ _ _ _ hsj, hAs s hsi]
  refine ⟨hBlen.trans hAlen, ?_, ?_, ?_⟩
  · intro t
    by_cases hti : t = i
    · subst hti
      rw [hBi]
      simp only [List.length_set]
    · by_cases htj : t = j
      · subst htj
        rw [hBj]
        simp only [List.length_set]
      · rw [hBs t hti htj]
  · intro t
    by_cases hti : t = i
    · subst hti
      rw [hBi]
      exact filter_set_unlocked Ti.players p1 player2 hp1 h1 h2
    · by_cases htj : t = j
      · subst htj
        rw [hBj]
        exact filter_set_unlocked Tj.players p2 player1 hp2 h2 h1
      · rw [hBs t hti htj]
  · have E1 : allIds A + teamIds Ti
        = allIds T + teamIds { Ti with players := Ti.players.set p1 player2 } := by
      rw [hA]
      exact allIds_set_exchange T i _ hi
    have E2 : allIds B + teamIds Tj
        = allIds A + teamIds { Tj with players := Tj.players.set p2 player1 } := by
      rw [hB, ← hAj]
      exact allIds_set_exchange A j _ (by omega)
    have F1 : teamIds { Ti with players := Ti.players.set p1 player2 }
          + {player1.playerId}
        = teamIds Ti + {player2.playerId} := by
      unfold teamIds
      exact map_set_exchange (·.playerId) Ti.players p1 player2 defaultPlayerMatch hp1
    have F2 : teamIds { Tj with players := Tj.players.set p2 player1 }
          + {player2.playerId}
        = teamIds Tj + {player1.playerId} := by
      unfold teamIds
      exact map_set_exchange (·.playerId) Tj.players p2 player1 defaultPlayerMatch hp2
    have G : teamIds { Ti with players := Ti.players.set p1 player2 }
          + teamIds { Tj with players := Tj.players.set p2 player1 }
        = teamIds Ti + teamIds Tj := by
      have hsum : (teamIds { Ti with players := Ti.players.set p1 player2 }
            + teamIds { Tj with players := Tj.players.set p2 player1 })
            + ({player1.playerId} + {player2.playerId})
          = (teamIds Ti + teamIds Tj)
            + ({player1.playerId} + {player2.playerId}) := by
        calc (teamIds { Ti with players := Ti.players.set p1 player2 }
              + teamIds { Tj with players := Tj.players.set p2 player1 })
              + ({player1.playerId} + {player2.playerId})
        _ = (teamIds { Ti with players := Ti.players.set p1 player2 } + {player1.playerId})
              + (teamIds { Tj with players := Tj.players.set p2 player1 }
                + {player2.playerId}) := by abel
        _ = (teamIds Ti + {player2.playerId}) + (teamIds Tj + {player1.playerId}) := by
              rw [F1, F2]
        _ = (teamIds Ti + teamIds Tj) + ({player1.playerId} + {player2.playerId}) := by abel
      exact add_right_cancel hsum
    have key : allIds B + (teamIds Tj + teamIds Ti)
        = allIds T + (teamIds Tj + teamIds Ti) := by
      calc allIds B + (teamIds Tj + teamIds Ti)
      _ = (allIds B + teamIds Tj) + teamIds Ti := by abel
      _ = (allIds A + teamIds { Tj with players := Tj.players.set p2 player1 })
            + teamIds Ti := by rw [E2]
      _ = (allIds A + teamIds Ti)
            + teamIds { Tj with players := Tj.players.set p2 player1 } := by abel
      _ = (allIds T + teamIds { Ti with players := Ti.players.set p1 player2 })
            + teamIds { Tj with players := Tj.players.set p2 player1 } := by rw [E1]
      _ = allIds T + (teamIds { Ti with players := Ti.players.set p1 player2 }
            + teamIds { Tj with players := Tj.players.set p2 player1 }) := by abel
      _ = allIds T + (teamIds Ti + teamIds Tj) := by rw [G]
      _ = allIds T + (teamIds Tj + teamIds Ti) := by abel
    exact add_right_cancel key
theorem trySwap_shape (weights : SkillWeights) (i j p1 p2 : ℕ) (st : OptState)
    (hij : i ≠ j) (hi : i < st.teams.length) (hj : j < st.teams.length)
    (hp1 : p1 < ((st.teams.getD i emptyTeamMatch).players.length))
    (hp2 : p2 < ((st.teams.getD j emptyTeamMatch).players.length)) :
    TeamsShape (trySwap weights i j p1 p2 st).teams st.teams := by
  simp only [trySwap]
  by_cases hlock : ((st.teams.getD i emptyTeamMatch).players.getD p1 defaultPlayerMatch).isLocked
      || ((st.teams.getD j emptyTeamMatch).players.getD p2 defaultPlayerMatch).isLocked
  · rw [if_pos hlock]
    exact teamsShape_refl _
  · rw [if_neg hlock]
    simp only [Bool.or_eq_true, not_or, Bool.not_eq_true] at hlock
    obtain ⟨h1, h2⟩ := hlock
    have hswap := swapWrite_shape st.teams i j p1 p2 hij hi hj hp1 hp2 h1 h2
    set player1 := (st.teams.getD i emptyTeamMatch).players.getD p1 defaultPlayerMatch with hP1
    set player2 := (st.teams.getD j emptyTeamMatch).players.getD p2 defaultPlayerMatch with hP2
    set B := setPlayerAt (setPlayerAt st.teams i p1 player2) j p2 player1 with hBdef
    set U := updateAt (updateAt B i weights) j weights with hUdef
    have hUplayers : ∀ s, (U.getD s emptyTeamMatch).players = (B.getD s emptyTeamMatch).players := by
      intro s
      rw [hUdef, updateAt_players, updateAt_players]
    have hUshape : TeamsShape U st.teams :=
      teamsShape_trans
        (teamsShape_trans (updateAt_shape _ _ _) (updateAt_shape _ _ _)) hswap
    by_cases hacc : calculateTotalScoreDifference U < st.best
    · rw [if_pos hacc]
      exact hUshape
    · rw [if_neg hacc]
      have hUlen : U.length = st.teams.length := hUshape.1
      have hBi_players : (B.getD i emptyTeamMatch).players
          = (st.teams.getD i emptyTeamMatch).players.set p1 player2 := by
        rw [hBdef, getD_setPlayerAt_ne _ _ _ _ _ hij,
          getD_setPlayerAt_self _ _ _ _ hi]
      have hBj_players : (B.getD j emptyTeamMatch).players
          = (st.teams.getD j emptyTeamMatch).players.set p2 player1 := by
        rw [hBdef, getD_setPlayerAt_self _ _ _ _
          (by rw [setPlayerAt_length]; omega : j < (setPlayerAt st.teams i p1 player2).length),
          getD_setPlayerAt_ne _ _ _ _ _ (Ne.symm hij)]
      have hBs_players : ∀ s, s ≠ i → s ≠ j → (B.getD s emptyTeamMatch).players
          = (st.teams.getD s emptyTeamMatch).players := by
        intro s hsi hsj
        rw [hBdef, getD_setPlayerAt_ne _ _ _ _ _ hsj, getD_setPlayerAt_ne _ _ _ _ _ hsi]
      set V := setPlayerAt U i p1 player1 with hVdef
      set R := setPlayerAt V j p2 player2 with hRdef
      have hVi_players : (V.getD i emptyTeamMatch).players
          = (st.teams.getD i emptyTeamMatch).players := by
        rw [hVdef, getD_setPlayerAt_self _ _ _ _ (by omega : i < U.length)]
        show (U.getD i emptyTeamMatch).players.set p1 player1
          = (st.teams.getD i emptyTeamMatch).players
        rw [hUplayers i, hBi_players, List.set_set, hP1,
          set_getD_self _ _ _ hp1]
      have hRi_players : (R.getD i emptyTeamMatch).players
          = (st.teams.getD i emptyTeamMatch).players := by
        rw [hRdef, getD_setPlayerAt_ne _ _ _ _ _ hij, hVi_players]
      have hRj_players : (R.getD j emptyTeamMatch).players
          = (st.teams.getD j emptyTeamMatch).players := by
        rw [hRdef, getD_setPlayerAt_self _ _ _ _
          (by rw [hVdef, setPlayerAt_length]; omega : j < V.length)]
        show (V.getD j emptyTeamMatch).players.set p2 player2
          = (st.teams.getD j emptyTeamMatch).players
        rw [hVdef, getD_setPlayerAt_ne _ _ _ _ _ (Ne.symm hij), hUplayers j, hBj_players,
          List.set_set, hP2, set_getD_self _ _ _ hp2]
      have hRs_players : ∀ s, s ≠ i → s ≠ j → (R.getD s emptyTeamMatch).players
          = (st.teams.getD s emptyTeamMatch).players := by
        intro s hsi hsj
        rw [hRdef, getD_setPlayerAt_ne _ _ _ _ _ hsj, hVdef,
          getD_setPlayerAt_ne _ _ _ _ _ hsi, hUplayers s, hBs_players s hsi hsj]
      apply teamsShape_of_players_eq
      · simp only [OptState.teams]
        rw [updateAt_length, updateAt_length, hRdef, setPlayerAt_length, hVdef,
          setPlayerAt_length, hUlen]
      · intro s
        simp only [OptState.teams]
        rw [updateAt_players, updateAt_players]
        by_cases hsi : s = i
        · subst hsi; exact hRi_players
        · by_cases hsj : s = j
          · subst hsj; exact hRj_players
          · exact hRs_players s hsi hsj
theorem foldl_teamsShape {α : Type} (F : OptState → α → OptState) :
    ∀ (l : List α) (st0 : OptState),
      (∀ (st : OptState) (a : α), a ∈ l → TeamsShape st.teams st0.teams →
        TeamsShape (F st a).teams st.teams) →
      TeamsShape (l.foldl F st0).teams st0.teams := by
  intro l
  induction l with
  | nil => intro st0 _; exact teamsShape_refl _
  | cons a l ih =>
    intro st0 h
    have hstep : TeamsShape (F st0 a).teams st0.teams :=
      h st0 a (List.mem_cons_self a l) (teamsShape_refl _)
    have htail : TeamsShape (l.foldl F (F st0 a)).teams (F st0 a).teams := by
      apply ih
      intro st b hb hshape
      exact h st b (List.mem_cons_of_mem a hb) (teamsShape_trans hshape hstep)
    simpa using teamsShape_trans htail hstep

theorem optimizePass_shape (weights : SkillWeights) (st0 : OptState) :
    TeamsShape (optimizePass weights st0).teams st0.teams := by
  apply foldl_teamsShape
  intro st i hi hshape
  apply foldl_teamsShape
  intro st1 j hj hshape1
  by_cases hij : i < j
  · simp only [if_pos hij]
    apply foldl_teamsShape
    intro st2 p1 hp1 hshape2
    apply foldl_teamsShape
    intro st3 p2 hp2 hshape3
    have hchain2 : TeamsShape st2.teams st0.teams :=
      teamsShape_trans hshape2 (teamsShape_trans hshape1 hshape)
    have hchain3 : TeamsShape st3.teams st0.teams :=
      teamsShape_trans hshape3 hchain2
    apply trySwap_shape
    · omega
    · rw [hchain3.1]
      exact List.mem_range.1 hi
    · rw [hchain3.1]
      exact List.mem_range.1 hj
    · have := List.mem_range.1 hp1
      have heq1 : (st3.teams.getD i emptyTeamMatch).players.length
          = (st2.teams.getD i emptyTeamMatch).players.length := hshape3.2.1 i
      have heq2 : (st2.teams.getD i emptyTeamMatch).players.length
          = (st1.teams.getD i emptyTeamMatch).players.length := hshape2.2.1 i
      omega
    · have := List.mem_range.1 hp2
      have heq1 : (st3.teams.getD j emptyTeamMatch).players.length
          = (st2.teams.getD j emptyTeamMatch).players.length := hshape3.2.1 j
      omega
  · simp only [if_neg hij]
    exact teamsShape_refl _

theorem optimizeLoop_shape (weights : SkillWeights) (timeOut : ℕ → Bool) :
    ∀ (fuel : ℕ) (teams : List TeamMatch) (best : ℚ) (improved : Bool) (iterations : ℕ),
      MAX_ITERATIONS - iterations ≤ fuel →
      TeamsShape (optimizeLoop weights timeOut teams best improved iterations).teams teams := by
  intro fuel
  induction fuel with
  | zero =>
    intro teams best improved iterations h
    rw [optimizeLoop, dif_neg (by omega : ¬(improved = true ∧ iterations < MAX_ITERATIONS))]
    exact teamsShape_refl _
  | succ n ih =>
    intro teams best improved iterations h
    rw [optimizeLoop]
    by_cases hc : improved = true ∧ iterations < MAX_ITERATIONS
    · rw [dif_pos hc]
      by_cases ht : timeOut iterations
      · rw [if_pos ht]
        exact teamsShape_refl _
      · rw [if_neg ht]
        exact teamsShape_trans
          (ih _ _ _ _ (by omega))
          (optimizePass_shape weights { teams := teams, best := best, improved := false })
    · rw [dif_neg hc]
      exact teamsShape_refl _

theorem optimizeTeamBalance_shape (weights : SkillWeights) (timeOut : ℕ → Bool)
    (teams : List TeamMatch) :
    TeamsShape (optimizeTeamBalance weights timeOut teams).teams teams :=
  optimizeLoop_shape weights timeOut MAX_ITERATIONS teams _ true 0 (by omega)

/-- C10: the optimizer only exchanges slots 1-for-1: it preserves the
number of teams, every team's roster size, and the multiset of player ids
over all teams. -/
theorem optimize_preserves_rosters (weights : SkillWeights) (timeOut : ℕ → Bool)
    (teams : List TeamMatch) :
    (optimizeTeamBalance weights timeOut teams).teams.length = teams.length ∧
    (∀ t, ((optimizeTeamBalance weights timeOut teams).teams.getD t
        emptyTeamMatch).players.length
      = (teams.getD t emptyTeamMatch).players.length) ∧
    allIds (optimizeTeamBalance weights timeOut teams).teams = allIds teams :=
  ⟨(optimizeTeamBalance_shape weights timeOut teams).1,
   (optimizeTeamBalance_shape weights timeOut teams).2.1,
   (optimizeTeamBalance_shape weights timeOut teams).2.2.2⟩

/-- C4: a slot locked before `optimizeTeamBalance` is still a member of the
same team afterwards (locked players are never swapped in either role). -/
theorem optimize_preserves_locked_membership (weights : SkillWeights)
    (timeOut : ℕ → Bool) (teams : List TeamMatch) (t : ℕ) (slot : PlayerMatch)
    (hmem : slot ∈ (teams.getD t emptyTeamMatch).players)
    (hlock : slot.isLocked = true) :
    slot ∈ ((optimizeTeamBalance weights timeOut teams).teams.getD t
      emptyTeamMatch).players := by
  have hfilter := (optimizeTeamBalance_shape weights timeOut teams).2.2.1 t
  have hin : slot ∈ ((optimizeTeamBalance weights timeOut teams).teams.getD t
      emptyTeamMatch).players.filter (·.isLocked) := by
    rw [hfilter]
    exact List.mem_filter.2 ⟨hmem, hlock⟩
  exact (List.mem_filter.1 hin).1

theorem optimizeLoop_iter_bound (weights : SkillWeights) (timeOut : ℕ → Bool) :
    ∀ (fuel : ℕ) (teams : List TeamMatch) (best : ℚ) (improved : Bool) (iterations : ℕ),
      MAX_ITERATIONS - iterations ≤ fuel →
      (optimizeLoop weights timeOut teams best improved iterations).iterations
        ≤ max iterations MAX_ITERATIONS ∧
      (∀ k, iterations ≤ k → timeOut k = true →
        (optimizeLoop weights timeOut teams best improved iterations).iterations ≤ k) := by
  intro fuel
  induction fuel with
  | zero =>
    intro teams best improved iterations h
    rw [optimizeLoop, dif_neg (by omega : ¬(improved = true ∧ iterations < MAX_ITERATIONS))]
    exact ⟨by simp, fun k hk _ => hk⟩
  | succ n ih =>
    intro teams best improved iterations h
    rw [optimizeLoop]
    by_cases hc : improved = true ∧ iterations < MAX_ITERATIONS
    · rw [dif_pos hc]
      by_cases ht : timeOut iterations
      · rw [if_pos ht]
        exact ⟨by simp [le_max_left], fun k hk _ => hk⟩
      · rw [if_neg ht]
        obtain ⟨ih1, ih2⟩ := ih
          (optimizePass weights { teams := teams, best := best, improved := false }).teams
          (optimizePass weights { teams := teams, best := best, improved := false }).best
          (optimizePass weights { teams := teams, best := best, improved := false }).improved
          (iterations + 1) (by omega)
        constructor
        · have hmax : max (iterations + 1) MAX_ITERATIONS ≤ max iterations MAX_ITERATIONS := by
            omega
          exact le_trans ih1 hmax
        · intro k hk htk
          have hne : iterations ≠ k := by
            intro heq
            rw [heq] at ht
            exact ht htk
          exact ih2 k (by omega) htk
    · rw [dif_neg hc]
      exact ⟨by simp, fun k hk _ => hk⟩

/-- C7: the optimizer's iteration count never exceeds `MAX_ITERATIONS`,
and both limits are checked at the start of each pass: if the time check
fires at counter value `k`, the final count is at most `k` (no further pass
begins). -/
theorem optimize_bounded_iterations (weights : SkillWeights) (timeOut : ℕ → Bool)
    (teams : List TeamMatch) :
    (optimizeTeamBalance weights timeOut teams).iterations ≤ MAX_ITERATIONS ∧
    (∀ k, timeOut k = true →
      (optimizeTeamBalance weights timeOut teams).iterations ≤ k) := by
  obtain ⟨h1, h2⟩ := optimizeLoop_iter_bound weights timeOut MAX_ITERATIONS
    teams (calculateTotalScoreDifference teams) true 0 (by omega)
  exact ⟨by simpa using h1, fun k hk => h2 k (Nat.zero_le k) hk⟩

/-- Witness for C7: a time oracle that fires immediately stops the
optimizer before its first pass. -/
theorem optimize_bounded_iterations_witness :
    (optimizeTeamBalance DEFAULT_WEIGHTS (fun _ => true) witnessTeams).iterations ≤ 0 :=
  (optimize_bounded_iterations DEFAULT_WEIGHTS (fun _ => true) witnessTeams).2 0 rfl
/-- Witness for C4 at a concrete locked slot. -/
theorem optimize_preserves_locked_membership_witness :
    ({ mkSlot "w1" 9 with isLocked := true } : PlayerMatch)
      ∈ ((optimizeTeamBalance DEFAULT_WEIGHTS (fun _ => false) witnessTeams).teams.getD 0
          emptyTeamMatch).players :=
  optimize_preserves_locked_membership DEFAULT_WEIGHTS (fun _ => false) witnessTeams 0 _
    (by simp [witnessTeams]) rfl

theorem add_shuffle {M : Type} [AddCommMonoid M] (x a b c d : M) (h : a + b = c + d) :
    x + a + b = x + c + d := by
  rw [add_assoc, h, ← add_assoc]

theorem snakePass_ids (target : ℕ) :
    ∀ (teams : List TeamMatch) (rem : List ScoredPlayer),
      allIds (snakePass target teams rem).1
        + ((snakePass target teams rem).2.map (·.player.id) : Multiset String)
      = allIds teams + (rem.map (·.player.id) : Multiset String) := by
  intro teams
  induction teams with
  | nil => intro rem; simp [snakePass]
  | cons t ts ih =>
    intro rem
    cases rem with
    | nil => simp [snakePass]
    | cons p rem =>
      by_cases h : t.players.length < target
      · rcases hsp : snakePass target ts rem with ⟨ts1, rem1⟩
        have ihh := ih rem
        rw [hsp] at ihh
        simp only [snakePass, if_pos h, hsp, allIds_cons]
        show teamIds { t with players := t.players ++ [toPlayerMatch p] } + allIds ts1
            + (rem1.map (·.player.id) : Multiset String)
          = teamIds t + allIds ts + ((p :: rem).map (·.player.id) : Multiset String)
        have hteam : teamIds { t with players := t.players ++ [toPlayerMatch p] }
            = teamIds t + {p.player.id} := by
          unfold teamIds
          simp only [toPlayerMatch, List.map_append, List.map_cons, List.map_nil]
          rw [← Multiset.coe_singleton, ← Multiset.coe_add]
        rw [hteam, List.map_cons]
        show teamIds t + {p.player.id} + allIds ts1 + (rem1.map (·.player.id) : Multiset String)
          = teamIds t + allIds ts
            + (p.player.id ::ₘ (rem.map (·.player.id) : Multiset String))
        calc teamIds t + {p.player.id} + allIds ts1
              + (rem1.map (·.player.id) : Multiset String)
        _ = teamIds t + {p.player.id}
              + (allIds ts1 + (rem1.map (·.player.id) : Multiset String)) := by abel
        _ = teamIds t + {p.player.id}
              + (allIds ts + (rem.map (·.player.id) : Multiset String)) := by rw [ihh]
        _ = teamIds t + allIds ts
              + (p.player.id ::ₘ (rem.map (·.player.id) : Multiset String)) := by
              rw [← Multiset.singleton_add]
              abel
      · rcases hsp : snakePass target ts (p :: rem) with ⟨ts1, rem1⟩
        have ihh := ih (p :: rem)
        rw [hsp] at ihh
        simp only [snakePass, if_neg h, hsp, allIds_cons]
        show teamIds t + allIds ts1 + (rem1.map (·.player.id) : Multiset String)
          = teamIds t + allIds ts + ((p :: rem).map (·.player.id) : Multiset String)
        exact add_shuffle _ _ _ _ _ ihh

theorem snakeLoop_ids (target : ℕ) :
    ∀ (fuel : ℕ) (teams : List TeamMatch) (rem : List ScoredPlayer) (b : Bool)
      (ts : List TeamMatch),
      snakeLoopFuel target fuel teams rem b = some ts →
      allIds ts = allIds teams + (rem.map (·.player.id) : Multiset String) := by
  intro fuel
  induction fuel with
  | zero => intro teams rem b ts h; exact absurd h (by simp [snakeLoopFuel])
  | succ n ih =>
    intro teams rem b ts h
    cases rem with
    | nil =>
      simp only [snakeLoopFuel, Option.some.injEq] at h
      simp [← h]
    | cons p rem =>
      cases b with
      | true =>
        rcases hsp : snakePass target teams (p :: rem) with ⟨A, R⟩
        rw [snakeLoopFuel, hsp] at h
        have hg := ih A R false ts h
        have hp := snakePass_ids target teams (p :: rem)
        rw [hsp] at hp
        simp only at hp hg
        rw [hg]
        exact hp
      | false =>
        rcases hsp : snakePass target teams.reverse (p :: rem) with ⟨A, R⟩
        rw [snakeLoopFuel, hsp] at h
        have hg := ih A.reverse R true ts h
        have hp := snakePass_ids target teams.reverse (p :: rem)
        rw [hsp] at hp
        simp only at hp hg
        rw [hg, allIds_reverse]
        rw [allIds_reverse] at hp
        exact hp

theorem allIds_map_update (l : List TeamMatch) (weights : SkillWeights) :
    allIds (l.map (fun t => updateTeamScores t weights)) = allIds l := by
  induction l with
  | nil => rfl
  | cons t ts ih =>
    simp only [List.map_cons, allIds_cons, ih]
    unfold teamIds
    rw [updateTeamScores_players]

theorem allIds_initialTeams (k : ℕ) : allIds (initialTeams k) = 0 := by
  apply List.sum_eq_zero
  intro x hx
  simp only [initialTeams, allIds, List.map_map, List.mem_map] at hx
  obtain ⟨i, _, rfl⟩ := hx
  rfl

/-- C3: whenever `generateTeams` returns a result, the multiset of player
ids across the returned teams equals the multiset of ids of the available
input players — no player is duplicated or dropped. -/
theorem generateTeams_conserves_ids (fuel : ℕ) (timeOut : ℕ → Bool)
    (players : List Player) (numberOfTeams : ℕ) (playersPerTeam : Option ℕ)
    (skillWeights : Option SkillWeights) (res : TeamGenerationResult)
    (h : generateTeamsFuel fuel timeOut players numberOfTeams playersPerTeam skillWeights
        = some (Except.ok res)) :
    allIds res.teams
      = ((players.filter (fun p => p.availability == "available")).map (·.id)
          : Multiset String) := by
  by_cases h0 : (players.filter (fun p => p.availability == "available")).length = 0
  · rw [generateTeamsFuel] at h
    simp [h0] at h
  · rw [generateTeamsFuel] at h
    simp only [if_neg h0] at h
    rcases hdraft : snakeLoopFuel
        (targetPlayersPerTeam playersPerTeam
          (List.insertionSort (fun a b => b.totalScore ≤ a.totalScore)
            ((players.filter (fun p => p.availability == "available")).map
              (fun player => ScoredPlayer.mk player
                (calculatePlayerScore player (skillWeights.getD DEFAULT_WEIGHTS))))).length
          numberOfTeams)
        fuel (initialTeams numberOfTeams)
        (List.insertionSort (fun a b => b.totalScore ≤ a.totalScore)
          ((players.filter (fun p => p.availability == "available")).map
            (fun player => ScoredPlayer.mk player
              (calculatePlayerScore player (skillWeights.getD DEFAULT_WEIGHTS)))))
        true with hnone | drafted
    · rw [hdraft] at h
      simp at h
    · rw [hdraft] at h
      simp only [Option.some.injEq, Except.ok.injEq] at h
      have hteams : res.teams
          = (optimizeTeamBalance (skillWeights.getD DEFAULT_WEIGHTS) timeOut
              (drafted.map (fun team => updateTeamScores team
                (skillWeights.getD DEFAULT_WEIGHTS)))).teams := by
        rw [← h]
      rw [hteams,
        (optimizeTeamBalance_shape _ _ _).2.2.2,
        allIds_map_update,
        snakeLoop_ids _ fuel _ _ _ drafted hdraft,
        allIds_initialTeams]
      have hperm : ((List.insertionSort (fun a b => b.totalScore ≤ a.totalScore)
            ((players.filter (fun p => p.availability == "available")).map
              (fun player => ScoredPlayer.mk player
                (calculatePlayerScore player (skillWeights.getD DEFAULT_WEIGHTS))))).map
            (·.player.id) : Multiset String)
          = (((players.filter (fun p => p.availability == "available")).map
              (fun player => ScoredPlayer.mk player
                (calculatePlayerScore player (skillWeights.getD DEFAULT_WEIGHTS)))).map
              (·.player.id) : Multiset String) :=
        Multiset.coe_eq_coe.2 ((List.perm_insertionSort _ _).map _)
      rw [zero_add, hperm, List.map_map]
      rfl
/-- C6: `swapPlayers` returns `(false, unchanged)` when the indices
coincide, either index is out of range, the player is not found in the
source team, or the found slot is locked; otherwise it returns `true`,
splices exactly that slot out of the source roster, appends it to the
destination roster, recomputes both affected teams from their new rosters,
and leaves every other team untouched. -/
theorem swapPlayers_spec (teams : List TeamMatch) (playerId : String)
    (fromTeamIndex toTeamIndex : ℤ) (weights : SkillWeights) :
    (fromTeamIndex = toTeamIndex →
      swapPlayers teams playerId fromTeamIndex toTeamIndex weights = (false, teams)) ∧
    (fromTeamIndex < 0 ∨ (teams.length : ℤ) ≤ fromTeamIndex →
      swapPlayers teams playerId fromTeamIndex toTeamIndex weights = (false, teams)) ∧
    (toTeamIndex < 0 ∨ (teams.length : ℤ) ≤ toTeamIndex →
      swapPlayers teams playerId fromTeamIndex toTeamIndex weights = (false, teams)) ∧
    (fromTeamIndex ≠ toTeamIndex →
      0 ≤ fromTeamIndex → fromTeamIndex < (teams.length : ℤ) →
      0 ≤ toTeamIndex → toTeamIndex < (teams.length : ℤ) →
      ((teams.getD fromTeamIndex.toNat emptyTeamMatch).players.findIdx?
          (fun p => p.playerId == playerId) = none →
        swapPlayers teams playerId fromTeamIndex toTeamIndex weights = (false, teams)) ∧
      (∀ playerIndex,
        (teams.getD fromTeamIndex.toNat emptyTeamMatch).players.findIdx?
            (fun p => p.playerId == playerId) = some playerIndex →
        (((teams.getD fromTeamIndex.toNat emptyTeamMatch).players.getD playerIndex
            defaultPlayerMatch).isLocked = true →
          swapPlayers teams playerId fromTeamIndex toTeamIndex weights = (false, teams)) ∧
        (((teams.getD fromTeamIndex.toNat emptyTeamMatch).players.getD playerIndex
            defaultPlayerMatch).isLocked = false →
          (swapPlayers teams playerId fromTeamIndex toTeamIndex weights).1 = true ∧
          (swapPlayers teams playerId fromTeamIndex toTeamIndex weights).2.length
            = teams.length ∧
          ((swapPlayers teams playerId fromTeamIndex toTeamIndex weights).2.getD
              fromTeamIndex.toNat emptyTeamMatch)
            = updateTeamScores
                { teams.getD fromTeamIndex.toNat emptyTeamMatch with
                  players := (teams.getD fromTeamIndex.toNat
                    emptyTeamMatch).players.eraseIdx playerIndex } weights ∧
          ((swapPlayers teams playerId fromTeamIndex toTeamIndex weights).2.getD
              toTeamIndex.toNat emptyTeamMatch)
            = updateTeamScores
                { teams.getD toTeamIndex.toNat emptyTeamMatch with
                  players := (teams.getD toTeamIndex.toNat emptyTeamMatch).players
                    ++ [(teams.getD fromTeamIndex.toNat emptyTeamMatch).players.getD
                          playerIndex defaultPlayerMatch] } weights ∧
          (∀ s : ℕ, s ≠ fromTeamIndex.toNat → s ≠ toTeamIndex.toNat →
            (swapPlayers teams playerId fromTeamIndex toTeamIndex weights).2.getD s
                emptyTeamMatch
              = teams.getD s emptyTeamMatch)))) := by
  refine ⟨?_, ?_, ?_, ?_⟩
  · intro h
    rw [swapPlayers, if_pos h]
  · intro h
    by_cases heq : fromTeamIndex = toTeamIndex
    · rw [swapPlayers, if_pos heq]
    · rw [swapPlayers, if_neg heq, if_pos h]
  · intro h
    by_cases heq : fromTeamIndex = toTeamIndex
    · rw [swapPlayers, if_pos heq]
    · by_cases hf : fromTeamIndex < 0 ∨ (teams.length : ℤ) ≤ fromTeamIndex
      · rw [swapPlayers, if_neg heq, if_pos hf]
      · rw [swapPlayers, if_neg heq, if_neg hf, if_pos h]
  · intro hne hf0 hflt ht0 htlt
    have hfr : ¬(fromTeamIndex < 0 ∨ (teams.length : ℤ) ≤ fromTeamIndex) := by omega
    have htr : ¬(toTeamIndex < 0 ∨ (teams.length : ℤ) ≤ toTeamIndex) := by omega
    constructor
    · intro hfind
      simp only [swapPlayers]
      rw [if_neg hne, if_neg hfr, if_neg htr, hfind]
    · intro playerIndex hfind
      constructor
      · intro hlock
        simp only [swapPlayers]
        rw [if_neg hne, if_neg hfr, if_neg htr, hfind]
        exact if_pos hlock
      · intro hlock
        have hswap : swapPlayers teams playerId fromTeamIndex toTeamIndex weights
            = (true,
              (teams.set fromTeamIndex.toNat
                (updateTeamScores
                  { teams.getD fromTeamIndex.toNat emptyTeamMatch with
                    players := (teams.getD fromTeamIndex.toNat
                      emptyTeamMatch).players.eraseIdx playerIndex } weights)).set
                toTeamIndex.toNat
                (updateTeamScores
                  { teams.getD toTeamIndex.toNat emptyTeamMatch with
                    players := (teams.getD toTeamIndex.toNat emptyTeamMatch).players
                      ++ [(teams.getD fromTeamIndex.toNat emptyTeamMatch).players.getD
                            playerIndex defaultPlayerMatch] } weights)) := by
          simp only [swapPlayers]
          rw [if_neg hne, if_neg hfr, if_neg htr, hfind]
          exact if_neg (by rw [hlock]; decide)
        have hfi : fromTeamIndex.toNat < teams.length := by omega
        have hti : toTeamIndex.toNat < teams.length := by omega
        have hfiti : fromTeamIndex.toNat ≠ toTeamIndex.toNat := by omega
        refine ⟨by rw [hswap], ?_, ?_, ?_, ?_⟩
        · rw [hswap]
          simp [List.length_set]
        · rw [hswap]
          show ((teams.set fromTeamIndex.toNat _).set toTeamIndex.toNat _).getD
              fromTeamIndex.toNat emptyTeamMatch = _
          rw [getD_set_ne _ _ _ _ _ hfiti,
            getD_set_eq _ _ _ _ hfi]
        · rw [hswap]
          show ((teams.set fromTeamIndex.toNat _).set toTeamIndex.toNat _).getD
              toTeamIndex.toNat emptyTeamMatch = _
          rw [getD_set_eq _ _ _ _ (by rw [List.length_set]; omega)]
        · intro s hsf hst
          rw [hswap]
          show ((teams.set fromTeamIndex.toNat _).set toTeamIndex.toNat _).getD s
              emptyTeamMatch = _
          rw [getD_set_ne _ _ _ _ _ hst, getD_set_ne _ _ _ _ _ hsf]
/-- Witness for C6: a successful swap of the unlocked player `w2` from
team 0 to team 1. -/
theorem swapPlayers_spec_witness :
    (swapPlayers witnessTeams "w2" 0 1 DEFAULT_WEIGHTS).1 = true ∧
    (swapPlayers witnessTeams "w2" 0 1 DEFAULT_WEIGHTS).2.length = witnessTeams.length ∧
    ((swapPlayers witnessTeams "w2" 0 1 DEFAULT_WEIGHTS).2.getD (0 : ℤ).toNat emptyTeamMatch
      = updateTeamScores
          { witnessTeams.getD (0 : ℤ).toNat emptyTeamMatch with
            players := (witnessTeams.getD (0 : ℤ).toNat emptyTeamMatch).players.eraseIdx 1 }
          DEFAULT_WEIGHTS) ∧
    ((swapPlayers witnessTeams "w2" 0 1 DEFAULT_WEIGHTS).2.getD (1 : ℤ).toNat emptyTeamMatch
      = updateTeamScores
          { witnessTeams.getD (1 : ℤ).toNat emptyTeamMatch with
            players := (witnessTeams.getD (1 : ℤ).toNat emptyTeamMatch).players
              ++ [(witnessTeams.getD (0 : ℤ).toNat emptyTeamMatch).players.getD 1
                    defaultPlayerMatch] }
          DEFAULT_WEIGHTS) ∧
    (∀ s : ℕ, s ≠ (0 : ℤ).toNat → s ≠ (1 : ℤ).toNat →
      (swapPlayers witnessTeams "w2" 0 1 DEFAULT_WEIGHTS).2.getD s emptyTeamMatch
        = witnessTeams.getD s emptyTeamMatch) :=
  ((swapPlayers_spec witnessTeams "w2" 0 1 DEFAULT_WEIGHTS).2.2.2 (by decide) (by decide)
      (by decide) (by decide) (by decide)).2 1 (by decide) |>.2 (by decide)

/-! ### The worked example (C9) evaluated stage by stage -/

theorem c9_avail : c9Players.filter (fun p => p.availability == "available") = c9Players := by
  norm_num [c9Players, mkAvailPlayer]

theorem c9_score_map : c9Players.map
    (fun player => ScoredPlayer.mk player (calculatePlayerScore player DEFAULT_WEIGHTS))
    = c9Scored := by
  norm_num [c9Players, c9Scored, mkAvailPlayer, calculatePlayerScore, DEFAULT_WEIGHTS]

theorem c9_sort : List.insertionSort (fun a b => b.totalScore ≤ a.totalScore) c9Scored
    = c9Scored := by
  norm_num [c9Scored, List.insertionSort, List.orderedInsert, mkAvailPlayer]

theorem c9_draft : snakeLoopFuel 3 10 (initialTeams 2) c9Scored true = some [c9d0, c9d1] := by
  norm_num [c9Scored, snakeLoopFuel, snakePass, initialTeams, List.range_succ,
    toPlayerMatch, mkAvailPlayer, c9d0, c9d1, mkSlot, getEmptySkillAverages]
  refine ⟨⟨rfl, rfl⟩, rfl, rfl⟩

theorem c9_update0 : updateTeamScores c9d0 DEFAULT_WEIGHTS = c9t0 := by
  norm_num [c9d0, c9t0, updateTeamScores, skillSumsStep, getEmptySkillAverages,
    mkSlot, uniformSkills, getBest6PlayerSubset, -List.length_eq_zero]

theorem c9_update1 : updateTeamScores c9d1 DEFAULT_WEIGHTS = c9t1 := by
  norm_num [c9d1, c9t1, updateTeamScores, skillSumsStep, getEmptySkillAverages,
    mkSlot, uniformSkills, getBest6PlayerSubset, -List.length_eq_zero]

theorem c9_diff : calculateTotalScoreDifference [c9t0, c9t1] = 1 := by
  norm_num [calculateTotalScoreDifference, c9t0, c9t1, c9d0, c9d1]

theorem c9_try (p1 p2 : ℕ) (h1 : p1 < 3) (h2 : p2 < 3) :
    trySwap DEFAULT_WEIGHTS 0 1 p1 p2 ⟨[c9t0, c9t1], 1, false⟩ = ⟨[c9t0, c9t1], 1, false⟩ := by
  interval_cases p1 <;> interval_cases p2 <;>
    norm_num [trySwap, c9t0, c9t1, c9d0, c9d1, mkSlot, uniformSkills, setPlayerAt, updateAt,
      modifyTeamAt, emptyTeamMatch, defaultPlayerMatch, updateTeamScores, skillSumsStep,
      getEmptySkillAverages, calculateTotalScoreDifference, DEFAULT_WEIGHTS,
      getBest6PlayerSubset, -List.length_eq_zero]

theorem c9_pass : optimizePass DEFAULT_WEIGHTS ⟨[c9t0, c9t1], 1, false⟩
    = ⟨[c9t0, c9t1], 1, false⟩ := by
  have h00 := c9_try 0 0 (by omega) (by omega)
  have h01 := c9_try 0 1 (by omega) (by omega)
  have h02 := c9_try 0 2 (by omega) (by omega)
  have h10 := c9_try 1 0 (by omega) (by omega)
  have h11 := c9_try 1 1 (by omega) (by omega)
  have h12 := c9_try 1 2 (by omega) (by omega)
  have h20 := c9_try 2 0 (by omega) (by omega)
  have h21 := c9_try 2 1 (by omega) (by omega)
  have h22 := c9_try 2 2 (by omega) (by omega)
  simp only [optimizePass, c9t0, c9t1, c9d0, c9d1] at *
  norm_num [List.range_succ, emptyTeamMatch, h00, h01, h02, h10, h11, h12, h20, h21, h22]

theorem c9_loop : optimizeTeamBalance DEFAULT_WEIGHTS (fun _ => false) [c9t0, c9t1]
    = ⟨[c9t0, c9t1], 1⟩ := by
  rw [optimizeTeamBalance, c9_diff, optimizeLoop]
  norm_num [MAX_ITERATIONS, c9_pass]
  rw [optimizeLoop]
  norm_num

theorem c9_sbs : calculateSkillBalanceScore [c9t0, c9t1] DEFAULT_WEIGHTS = 1/36 := by
  norm_num [calculateSkillBalanceScore, skillVariance, c9t0, c9t1, c9d0, c9d1, uniformSkills,
    DEFAULT_WEIGHTS]

theorem c9_pipeline_eval : generateTeamsFuel 10 (fun _ => false) c9Players 2 (some 3) none
    = some (Except.ok c9Expected) := by
  simp only [generateTeamsFuel, Option.getD_none]
  rw [c9_avail, if_neg (show ¬(c9Players.length = 0) by norm_num [c9Players]),
    c9_score_map, c9_sort,
    show targetPlayersPerTeam (some 3) c9Scored.length 2 = 3 from rfl, c9_draft]
  norm_num [c9_update0, c9_update1, c9_loop, c9_diff, c9_sbs, c9Expected]

/-- C9: on the spec's worked example — six players with scores
10, 9, 8, 7, 6, 5, two teams, three per team — the snake draft yields
Team 1 = {10, 7, 6} (total 23) and Team 2 = {9, 8, 5} (total 22), the
spread is 1, the optimizer accepts no swap, and one pass is reported. -/
theorem example_six_players_pipeline :
    generateTeamsFuel 10 (fun _ => false) c9Players 2 (some 3) none
      = some (Except.ok c9Expected) :=
  c9_pipeline_eval

/-- Witness for C3 at the worked example. -/
theorem generateTeams_conserves_ids_witness :
    allIds c9Expected.teams
      = ((c9Players.filter (fun p => p.availability == "available")).map (·.id)
          : Multiset String) :=
  generateTeams_conserves_ids 10 (fun _ => false) c9Players 2 (some 3) none c9Expected
    c9_pipeline_eval

end VTeam

